import Mathlib

/-!
# githubbot: the session layer (`session.go`)

A shallow embedding of `session.go`.  Channels are FIFO lists, the websocket
connection is an explicit record of the frames still to arrive and the frames
already written, the logger is the list of entries logged so far, and every
operation is a function from a `Session` to a `Result` that says whether the
operation returned, is suspended, or ended the process.  The goroutines `Run`
starts are interleaved by an explicit schedule of turns, each turn running the
goroutine's own code on the shared session.
-/

namespace Githubbot

/-! ## JSON values and the wire envelope -/

/-- JSON text, represented by the value it denotes. -/
inductive Json where
  | null
  | num (n : Int)
  | str (s : String)
  | obj (fields : List (String × Json))

/-- The type `json.RawMessage`: an encoded JSON value kept undecoded. -/
abbrev RawMessage := Json

/-- Modelled from the spec: the declaration of `PacketType` is outside `session.go`;
the spec calls the `type` field a string enum. -/
abbrev PacketType := String

/-- Modelled from the spec: the tag of the passcode authentication command
(the constant is declared outside `session.go`). -/
def AuthType : PacketType := "auth-passcode"

/-- Modelled from the spec: the tag of the display-name command. -/
def NickType : PacketType := "nick"

/-- Modelled from the spec: the tag of the send-message command. -/
def SendType : PacketType := "send"

/-- Modelled from the spec: the tag of the inbound heartbeat event. -/
def PingEventType : PacketType := "heartbeat-event"

/-- Modelled from the spec: the tag of the outbound heartbeat reply. -/
def PingReplyType : PacketType := "heartbeat-reply"

/-- Modelled from the spec: the wire envelope `PacketEvent` (declared outside
`session.go`): `id`, `type` and the undecoded `data`. -/
structure PacketEvent where
  ID : String
  «Type» : PacketType
  Data : RawMessage

/-- Modelled from the spec: the payload `AuthCommand` (mechanism, passcode). -/
structure AuthCommand where
  «Type» : String
  Passcode : String

/-- Modelled from the spec: the payload `NickCommand` (name). -/
structure NickCommand where
  Name : String

/-- Modelled from the spec: the payload `SendCommand` (content, parent reference). -/
structure SendCommand where
  Content : String
  Parent : String

/-- Modelled from the spec: the payload `PingReply` (echoed timestamp). -/
structure PingReply where
  UnixTime : Int

/-- Modelled from the spec: the payload `PingEvent` (server timestamp). -/
structure PingEvent where
  Time : Int

/-- The values `session.go` hands to `sendPayload` as `interface{}`; `unsupported`
stands for a Go value that `json.Marshal` rejects (a channel, a function). -/
inductive Payload where
  | auth (c : AuthCommand)
  | nick (c : NickCommand)
  | send (c : SendCommand)
  | pingReply (c : PingReply)
  | unsupported (goType : String)

/-- The value returned by `PacketEvent.Payload` as `interface{}`: a `*PingEvent`,
or the decoded payload of another event type. -/
inductive Decoded where
  | pingEvent (e : PingEvent)
  | other (tag : PacketType) (data : RawMessage)

/-- The library function `json.Marshal` on the payloads above.  Modelled from the
spec: the field keys (the struct tags are declared outside `session.go`). -/
def jsonMarshal : Payload → Except String RawMessage
  | .auth c => .ok (.obj [("type", .str c.«Type»), ("passcode", .str c.Passcode)])
  | .nick c => .ok (.obj [("name", .str c.Name)])
  | .send c => .ok (.obj [("content", .str c.Content), ("parent", .str c.Parent)])
  | .pingReply c => .ok (.obj [("time", .num c.UnixTime)])
  | .unsupported goType => .error ("json: unsupported type: " ++ goType)

/-- The library method `(*json.RawMessage).UnmarshalJSON`: it copies `data` into the
receiver; it fails only on a nil receiver, which `&packet.Data` never is. -/
def RawMessage.UnmarshalJSON (_m : RawMessage) (data : RawMessage) : Except String RawMessage :=
  .ok data

/-- The library function `strconv.Itoa`. -/
def Itoa (n : Int) : String :=
  toString n

/-- Modelled from the spec: `PacketEvent.Payload` (declared outside `session.go`),
the spec's `payload_as`: the shape of `data` is determined by `type`; a heartbeat
event whose data has no numeric `time` is a protocol violation. -/
def PacketEvent.Payload (p : PacketEvent) : Except String Decoded :=
  if p.«Type» = PingEventType then
    match p.Data with
    | .obj fields =>
      match fields.lookup "time" with
      | some (.num t) => .ok (.pingEvent { Time := t })
      | _ => .error "protocol violation: heartbeat event without a timestamp"
    | _ => .error "protocol violation: heartbeat event data is not an object"
  else
    .ok (.other p.«Type» p.Data)

/-- One frame on the wire. -/
abbrev Frame := Json

/-- Modelled from the spec: the Packet Codec's `encode` (the JSON encoding of a
`PacketEvent`, done by `WriteJSON`): an object with exactly the three top-level
fields `id`, `type`, `data`. -/
def encode (p : PacketEvent) : Frame :=
  .obj [("id", .str p.ID), ("type", .str p.«Type»), ("data", p.Data)]

/-- Modelled from the spec: the Packet Codec's `decode` (done by `ReadJSON`): it
fails with a decode error on invalid framing and on a missing envelope field. -/
def decode : Frame → Except String PacketEvent
  | .obj fields =>
    match fields.lookup "id", fields.lookup "type", fields.lookup "data" with
    | some (.str id), some (.str ty), some data => .ok { ID := id, «Type» := ty, Data := data }
    | _, _, _ => .error "decode error: missing envelope field"
  | _ => .error "decode error: not a JSON object"

/-! ## The connection, the logger and the session -/

/-- The websocket connection `*websocket.Conn`, seen from the session: the results
of the frame reads still to come (a transport error or a frame), the frames written
so far, and the errors the coming writes will meet (`none`: the write succeeds;
past the end of the list every write succeeds). -/
structure Conn where
  incoming : List (Except String Frame)
  written : List Frame
  writeErrs : List (Option String)

/-- The library method `(*websocket.Conn).ReadJSON`: read the next frame and decode
it; `none` when no frame has arrived (the call stays suspended). -/
def Conn.ReadJSON (c : Conn) : Option (Conn × Except String PacketEvent) :=
  match c.incoming with
  | [] => none
  | .error err :: rest => some ({ c with incoming := rest }, .error err)
  | .ok frame :: rest => some ({ c with incoming := rest }, decode frame)

/-- The library method `(*websocket.Conn).WriteJSON`: encode the packet and write
the frame, or fail with the error the stream has in store. -/
def Conn.WriteJSON (c : Conn) (p : PacketEvent) : Conn × Option String :=
  match c.writeErrs with
  | some err :: rest => ({ c with writeErrs := rest }, some err)
  | none :: rest => ({ c with writeErrs := rest, written := c.written ++ [encode p] }, none)
  | [] => ({ c with written := c.written ++ [encode p] }, none)

/-- Severity of a log entry. -/
inductive Level where
  | debug
  | info
  | warning
  | fatal
  deriving DecidableEq

/-- One entry of the logger. -/
structure LogEntry where
  level : Level
  msg : String

/-- The struct `Session`.  The channels hold the packets sent and not yet received,
oldest first; `logger` is the list of entries logged so far. -/
structure Session where
  RoomName : String
  password : String
  conn : Conn
  inbound : List PacketEvent
  outbound : List PacketEvent
  errChan : List String
  msgID : Int
  logger : List LogEntry

/-- How an operation leaves the session.
* `ok s a`: it returned `a`;
* `running s`: a loop that has done the iterations it was given and goes on;
* `blocked s`: suspended on an empty channel or on a read with no frame;
* `fatal s msg`: `Fatalf`/`Fatalln` logged `msg` and exited the process;
* `panic s err`: the goroutine panicked with `err`. -/
inductive Result (α : Type) where
  | ok (s : Session) (a : α)
  | running (s : Session)
  | blocked (s : Session)
  | fatal (s : Session) (msg : String)
  | panic (s : Session) (err : String)

/-- The session an operation leaves behind. -/
def Result.session {α : Type} : Result α → Session
  | .ok s _ => s
  | .running s => s
  | .blocked s => s
  | .fatal s _ => s
  | .panic s _ => s

/-- Append one entry to the session's logger. -/
def Session.log (s : Session) (level : Level) (msg : String) : Session :=
  { s with logger := s.logger ++ [{ level := level, msg := msg }] }

/-- The call `s.logger.Fatalf`: log at fatal level, then exit the process. -/
def Session.Fatalf {α : Type} (s : Session) (msg : String) : Result α :=
  .fatal (s.log .fatal msg) msg

/-! ## The operations of `session.go` -/

/-- The method `Session.receivePacket`; the value returned is Go's `error`
(`none` is `nil`). -/
def Session.receivePacket (s : Session) : Result (Option String) :=
  match s.conn.ReadJSON with
  | none => .blocked s
  | some (conn, .error err) => .ok { s with conn := conn } (some err)
  | some (conn, .ok packet) =>
    .ok { s with conn := conn, inbound := s.inbound ++ [packet] } none

/-- The method `Session.receiver`, run for at most `fuel` iterations of its loop. -/
def Session.receiver : Nat → Session → Result Unit
  | 0, s => .running s
  | fuel + 1, s =>
    match s.receivePacket with
    | .ok s (some err) => s.Fatalf ("Error receiving packet: " ++ err ++ "\n")
    | .ok s none => Session.receiver fuel s
    | .running s => .running s
    | .blocked s => .blocked s
    | .fatal s msg => .fatal s msg
    | .panic s err => .panic s err

/-- The method `Session.sendPayload`. -/
def Session.sendPayload (s : Session) (payload : Payload) (pType : PacketType) : Result Unit :=
  match jsonMarshal payload with
  | .error err => s.Fatalf ("Could not marshal payload: " ++ err ++ "\n")
  | .ok rawPayload =>
    let packet : PacketEvent := { ID := Itoa s.msgID, «Type» := pType, Data := .null }
    match RawMessage.UnmarshalJSON packet.Data rawPayload with
    | .error err => s.Fatalf ("Could not unmarshal raw message to packet: " ++ err ++ "\n")
    | .ok data => .ok { s with outbound := s.outbound ++ [{ packet with Data := data }] } ()

/-- The method `Session.sendAuth`. -/
def Session.sendAuth (s : Session) : Result Unit :=
  let s := s.log .debug "Sending auth."
  let payload : AuthCommand := { «Type» := "passcode", Passcode := s.password }
  s.sendPayload (.auth payload) AuthType

/-- The method `Session.sendNick`. -/
def Session.sendNick (s : Session) : Result Unit :=
  let s := s.log .debug "Sending nick."
  let payload : NickCommand := { Name := "GithubBot" }
  s.sendPayload (.nick payload) NickType

/-- The method `Session.sendMessage`. -/
def Session.sendMessage (s : Session) (text : String) (parent : String) : Result Unit :=
  let s := s.log .debug ("Sending text message: '" ++ text ++ "'")
  let payload : SendCommand := { Content := text, Parent := parent }
  s.sendPayload (.send payload) SendType

/-- The method `Session.handlePing`.  The failed type assertion ends the process
through the global logger (`logrus.Fatalln`), not the session's. -/
def Session.handlePing (s : Session) (p : PacketEvent) : Result Unit :=
  let s := s.log .debug "Handling ping."
  match p.Payload with
  | .error err => .panic s err
  | .ok data =>
    match data with
    | .pingEvent payload =>
      let out : PingReply := { UnixTime := payload.Time }
      s.sendPayload (.pingReply out) PingReplyType
    | .other _ _ => .fatal s "Cannot assert *PingEvent as such."

/-- The method `Session.inboundHandler`, run for at most `fuel` iterations. -/
def Session.inboundHandler : Nat → Session → Result Unit
  | 0, s => .running s
  | fuel + 1, s =>
    match s.inbound with
    | [] => .blocked s
    | packet :: rest =>
      let s := { s with inbound := rest }
      let s := s.log .debug ("Receiving packet of type '" ++ packet.«Type» ++ "'\n")
      if packet.«Type» = PingEventType then
        match s.handlePing packet with
        | .ok s _ => Session.inboundHandler fuel s
        | r => r
      else
        Session.inboundHandler fuel
          (s.log .info ("Unhandled packet type '" ++ packet.«Type» ++ "'"))

/-- The method `Session.outboundHandler`, run for at most `fuel` iterations. -/
def Session.outboundHandler : Nat → Session → Result Unit
  | 0, s => .running s
  | fuel + 1, s =>
    match s.outbound with
    | [] => .blocked s
    | packet :: rest =>
      let s := { s with outbound := rest }
      let s := s.log .debug ("Sending packet of type '" ++ packet.«Type» ++ "'\n")
      match s.conn.WriteJSON packet with
      | (conn, some err) => Session.Fatalf { s with conn := conn } ("Error sending packet: " ++ err ++ "\n")
      | (conn, none) => Session.outboundHandler fuel { s with conn := conn }

/-- The goroutines `Run` starts. -/
inductive Task where
  | sendAuth
  | outboundHandler
  | inboundHandler
  | receiver
  | sendNick
  | hookServer (port : Nat) (secret : String)
  deriving DecidableEq

/-- The method `Session.Run`: the goroutines it starts, in the order of the `go`
statements, and then the receive `<-s.errChan` on which it waits. -/
def Session.Run (s : Session) : List Task × Result Unit :=
  let auth : List Task := if s.password ≠ "" then [Task.sendAuth] else []
  let spawned : List Task :=
    auth ++ [Task.outboundHandler, Task.inboundHandler, Task.receiver, Task.sendNick,
      Task.hookServer 8888 "secret"]
  match s.errChan with
  | [] => (spawned, .blocked s)
  | _ :: rest => (spawned, .ok { s with errChan := rest } ())

/-- Modelled from the spec: the method `hookServer` is outside `session.go`; the
spec describes it as an auxiliary control server, which waits for requests. -/
def Session.hookServer (s : Session) (_port : Nat) (_secret : String) : Result Unit :=
  .blocked s

/-- One turn of a started goroutine under the scheduler: the goroutine, and the
number of iterations a loop does before the scheduler moves on. -/
structure Turn where
  task : Task
  fuel : Nat

/-- What a goroutine does in one turn: the command senders run their body, the
three loops run `session.go`'s loop for the iterations of the turn. -/
def Session.turn (s : Session) (t : Turn) : Result Unit :=
  match t.task with
  | .sendAuth => s.sendAuth
  | .sendNick => s.sendNick
  | .outboundHandler => s.outboundHandler t.fuel
  | .inboundHandler => s.inboundHandler t.fuel
  | .receiver => s.receiver t.fuel
  | .hookServer port secret => s.hookServer port secret

/-- Whether the operation ended the process: a fatal exit, or a panic that nothing
recovers. -/
def Result.exited {α : Type} : Result α → Bool
  | .fatal _ _ => true
  | .panic _ _ => true
  | _ => false

/-- The packets a turn of `task` sent on the outbound channel, read off the sessions
before and after the turn: the outbound handler only receives from the channel, and
the other goroutines only send on it, so what they sent is what the channel holds
past its earlier length. -/
def enqueuedIn (before : Session) (task : Task) (after : Session) : List PacketEvent :=
  match task with
  | .outboundHandler => []
  | _ => after.outbound.drop before.outbound.length

/-- The outbound frames of a session, oldest first: those written to the stream,
then those of the packets still queued. -/
def onWire (s : Session) : List Frame :=
  s.conn.written ++ s.outbound.map encode

/-- The goroutines started by `Run` under a schedule: the turns are taken in order
on the shared session, and a turn that ends the process ends the run.  The result
is the packets sent on the outbound channel, in order, and the state the run is
left in. -/
def Session.startup : List Turn → Session → List PacketEvent × Result Unit
  | [], s => ([], .running s)
  | t :: ts, s =>
    if (s.turn t).exited then
      (enqueuedIn s t.task (s.turn t).session, s.turn t)
    else
      (enqueuedIn s t.task (s.turn t).session ++ (Session.startup ts (s.turn t).session).1,
        (Session.startup ts (s.turn t).session).2)

/-- The network as `connect` meets it: the result of the TLS dial to
`euphoria.io:443` and of the websocket upgrade on a room URL. -/
structure Network where
  dial : Except String Unit
  newClient : String → Except String Conn

/-- The connection of a session that has not connected (Go's nil `conn`). -/
def Conn.unconnected : Conn :=
  { incoming := [], written := [], writeErrs := [] }

/-- The method `Session.connect`; the second component is Go's `error`. -/
def Session.connect (net : Network) (s : Session) : Session × Option String :=
  let s := s.log .debug "Connecting to euphoria via TLS..."
  match net.dial with
  | .error err => (s.log .warning "Connection via TLS failed.", some err)
  | .ok _ =>
    let roomURL := "wss://euphoria.io/room/" ++ s.RoomName ++ "/ws"
    match net.newClient roomURL with
    | .error err => (s.log .warning "Upgrade of TLS connection to websocket failed.", some err)
    | .ok wsConn => (({ s with conn := wsConn }).log .debug "Connection complete.", none)

/-- The function `NewSession`. -/
def NewSession (net : Network) (roomName password : String) (logger : List LogEntry) :
    Except String Session :=
  let s : Session :=
    { RoomName := roomName, password := password, conn := Conn.unconnected,
      inbound := [], outbound := [], errChan := [], msgID := 0, logger := logger }
  match s.connect net with
  | (_, some err) => .error err
  | (s, none) => .ok s

/-- The session states that the operations of `session.go` reach from `s₀`. -/
inductive Reachable (s₀ : Session) : Session → Prop where
  | init : Reachable s₀ s₀
  | receivePacket {s : Session} : Reachable s₀ s → Reachable s₀ s.receivePacket.session
  | receiver {s : Session} (fuel : Nat) : Reachable s₀ s → Reachable s₀ (s.receiver fuel).session
  | sendPayload {s : Session} (payload : Payload) (pType : PacketType) :
      Reachable s₀ s → Reachable s₀ (s.sendPayload payload pType).session
  | sendAuth {s : Session} : Reachable s₀ s → Reachable s₀ s.sendAuth.session
  | sendNick {s : Session} : Reachable s₀ s → Reachable s₀ s.sendNick.session
  | sendMessage {s : Session} (text parent : String) :
      Reachable s₀ s → Reachable s₀ (s.sendMessage text parent).session
  | handlePing {s : Session} (p : PacketEvent) :
      Reachable s₀ s → Reachable s₀ (s.handlePing p).session
  | inboundHandler {s : Session} (fuel : Nat) :
      Reachable s₀ s → Reachable s₀ (s.inboundHandler fuel).session
  | outboundHandler {s : Session} (fuel : Nat) :
      Reachable s₀ s → Reachable s₀ (s.outboundHandler fuel).session
  | Run {s : Session} : Reachable s₀ s → Reachable s₀ s.Run.2.session

/-! ## Concrete sessions used to evaluate the operations -/

/-- A session with an empty passcode, nothing in flight and a quiet stream. -/
def idle : Session :=
  { RoomName := "test", password := "", conn := Conn.unconnected,
    inbound := [], outbound := [], errChan := [], msgID := 0, logger := [] }

/-- A heartbeat event with server timestamp 1000. -/
def ping1000 : PacketEvent :=
  { ID := "", «Type» := PingEventType, Data := .obj [("time", .num 1000)] }

/-- An event of a type the session does not handle. -/
def joinEvent : PacketEvent :=
  { ID := "", «Type» := "join-event", Data := .obj [("name", .str "guest")] }

/-- The idle session on a stream whose first read fails and that has a frame after. -/
def brokenStream : Session :=
  { idle with
    conn := { incoming := [.error "unexpected EOF", .ok (encode ping1000)], written := [],
              writeErrs := [] } }

/-- The idle session on a stream whose first frame is not an envelope. -/
def garbledStream : Session :=
  { idle with
    conn := { incoming := [.ok (.str "garbage"), .ok (encode ping1000)], written := [],
              writeErrs := [] } }

/-- The idle session on a stream that delivers one heartbeat frame. -/
def pingStream : Session :=
  { idle with
    conn := { incoming := [.ok (encode ping1000)], written := [], writeErrs := [] } }

/-- The idle session with two packets waiting in the outbound queue. -/
def twoQueued : Session :=
  { idle with outbound := [joinEvent, ping1000] }

/-- The idle session with the passcode "xyz". -/
def withPasscode : Session :=
  { idle with password := "xyz" }

/-- The idle session with two packets queued on a stream whose next write fails. -/
def writeFails : Session :=
  { idle with
    outbound := [joinEvent, ping1000],
    conn := { incoming := [], written := [], writeErrs := [some "broken pipe"] } }

/-- A network on which both handshakes succeed and the stream delivers one
heartbeat frame. -/
def loopbackNet : Network :=
  { dial := .ok (),
    newClient := fun _ =>
      .ok { incoming := [.ok (encode ping1000)], written := [], writeErrs := [] } }

/-- The session `NewSession` makes on `loopbackNet` for the room "test". -/
def connected : Session :=
  { RoomName := "test", password := "",
    conn := { incoming := [.ok (encode ping1000)], written := [], writeErrs := [] },
    inbound := [], outbound := [], errChan := [], msgID := 0,
    logger := [{ level := .debug, msg := "Connecting to euphoria via TLS..." },
               { level := .debug, msg := "Connection complete." }] }

/-- The session with the passcode "xyz" on a stream whose first read fails. -/
def brokenWithPasscode : Session :=
  { brokenStream with password := "xyz" }

/-- A schedule of the goroutines of a session with a passcode: the receiver has the
first turn. -/
def receiverFirst : List Turn :=
  [⟨.receiver, 1⟩, ⟨.sendAuth, 0⟩, ⟨.outboundHandler, 1⟩, ⟨.inboundHandler, 1⟩,
   ⟨.sendNick, 0⟩, ⟨.hookServer 8888 "secret", 0⟩]

/-- A schedule of the goroutines of a session without a passcode: one turn each, in
the order of the `go` statements. -/
def goOrder : List Turn :=
  [⟨.outboundHandler, 1⟩, ⟨.inboundHandler, 1⟩, ⟨.receiver, 1⟩, ⟨.sendNick, 0⟩,
   ⟨.hookServer 8888 "secret", 0⟩]

/-- A schedule of the goroutines of a session without a passcode: a frame is received
and handled before the Nick sender runs, and the outbound handler runs last. -/
def pingFirst : List Turn :=
  [⟨.receiver, 1⟩, ⟨.inboundHandler, 1⟩, ⟨.sendNick, 0⟩, ⟨.hookServer 8888 "secret", 0⟩,
   ⟨.outboundHandler, 2⟩]

/-- A schedule of the goroutines of a session with a passcode: the Nick sender runs
before the Auth sender, and the loops have several turns in between. -/
def interleaved : List Turn :=
  [⟨.sendNick, 0⟩, ⟨.outboundHandler, 1⟩, ⟨.receiver, 1⟩, ⟨.sendAuth, 0⟩,
   ⟨.inboundHandler, 1⟩, ⟨.hookServer 8888 "secret", 0⟩, ⟨.outboundHandler, 3⟩]

/-- The startup command of a goroutine, if it has one: the Auth packet for
`sendAuth`, the Nick packet for `sendNick`. -/
def startupPacket (s : Session) : Task → Option PacketEvent
  | .sendAuth =>
    some { ID := Itoa s.msgID, «Type» := AuthType,
           Data := .obj [("type", .str "passcode"), ("passcode", .str s.password)] }
  | .sendNick =>
    some { ID := Itoa s.msgID, «Type» := NickType, Data := .obj [("name", .str "GithubBot")] }
  | _ => none

/-- The invariant of a session whose identifier is `m`: `msgID` is `m`, nothing is
on `errChan`, and every queued outbound packet carries the identifier `m`. -/
def Inv (m : Int) (s : Session) : Prop :=
  s.msgID = m ∧ s.errChan = [] ∧ ∀ p ∈ s.outbound, p.ID = Itoa m

/-! ## Heartbeat, dispatch and the command senders -/

/-- C1 (heartbeat law): when the payload of the inbound packet decodes to a
`PingEvent` with time `T`, `handlePing` returns, and the outbound queue is the
old queue followed by exactly one packet: type `PingReplyType`, data the encoding
of `PingReply{UnixTime: T}`, nothing else enqueued. -/
theorem handlePing_replies_once (s : Session) (p : PacketEvent) (T : Int)
    (hp : p.Payload = .ok (.pingEvent { Time := T })) :
    ∃ raw, jsonMarshal (.pingReply { UnixTime := T }) = .ok raw ∧
      s.handlePing p = .ok
        { s.log .debug "Handling ping." with
          outbound := s.outbound ++ [{ ID := Itoa s.msgID, «Type» := PingReplyType, Data := raw }] }
        () := by
  refine ⟨.obj [("time", .num T)], rfl, ?_⟩
  simp only [Session.handlePing, hp]
  rfl

/-- Witness of C1: the heartbeat with timestamp 1000 on the idle session. -/
theorem handlePing_replies_once_witness :
    ping1000.Payload = .ok (.pingEvent { Time := 1000 }) ∧
    ∃ raw, jsonMarshal (.pingReply { UnixTime := 1000 }) = .ok raw ∧
      idle.handlePing ping1000 = .ok
        { idle.log .debug "Handling ping." with
          outbound := idle.outbound ++
            [{ ID := Itoa idle.msgID, «Type» := PingReplyType, Data := raw }] }
        () :=
  ⟨rfl, handlePing_replies_once idle ping1000 1000 rfl⟩

/-- C2 (unknown-tag safety): when the packet at the head of the inbound queue has a
type other than `PingEventType`, one iteration of `inboundHandler` ends without a
fatal exit or a panic, leaves the outbound queue as it was (only the logger grows),
and the loop goes on with the rest of the inbound queue. -/
theorem inboundHandler_unknown_tag (s : Session) (packet : PacketEvent)
    (rest : List PacketEvent) (hin : s.inbound = packet :: rest)
    (hty : packet.«Type» ≠ PingEventType) :
    ∃ s' : Session,
      s.inboundHandler 1 = .running s' ∧
      s'.outbound = s.outbound ∧ s'.inbound = rest ∧ s'.conn = s.conn ∧
      s'.errChan = s.errChan ∧
      (∀ e ∈ s'.logger, e ∈ s.logger ∨ e.level ≠ Level.fatal) ∧
      ∀ fuel, s.inboundHandler (fuel + 1) = Session.inboundHandler fuel s' := by
  refine ⟨(({ s with inbound := rest }).log .debug
      ("Receiving packet of type '" ++ packet.«Type» ++ "'\n")).log .info
      ("Unhandled packet type '" ++ packet.«Type» ++ "'"), ?_, rfl, rfl, rfl, rfl, ?_, ?_⟩
  · simp [Session.inboundHandler, hin, hty]
  · intro e he
    simp only [Session.log, List.mem_append, List.mem_singleton] at he
    rcases he with (he | he) | he
    · exact Or.inl he
    · right; rw [he]; simp
    · right; rw [he]; simp
  · intro fuel
    simp [Session.inboundHandler, hin, hty]

/-- Witness of C2: an unhandled event followed by a heartbeat in the inbound queue. -/
theorem inboundHandler_unknown_tag_witness :
    ∃ s' : Session,
      ({ idle with inbound := [joinEvent, ping1000] }).inboundHandler 1 = .running s' ∧
      s'.outbound = ({ idle with inbound := [joinEvent, ping1000] }).outbound ∧
      s'.inbound = [ping1000] ∧
      s'.conn = ({ idle with inbound := [joinEvent, ping1000] }).conn ∧
      s'.errChan = ({ idle with inbound := [joinEvent, ping1000] }).errChan ∧
      (∀ e ∈ s'.logger,
        e ∈ ({ idle with inbound := [joinEvent, ping1000] }).logger ∨ e.level ≠ Level.fatal) ∧
      ∀ fuel, ({ idle with inbound := [joinEvent, ping1000] }).inboundHandler (fuel + 1) =
        Session.inboundHandler fuel s' :=
  inboundHandler_unknown_tag { idle with inbound := [joinEvent, ping1000] } joinEvent [ping1000]
    rfl (by decide)

/-- C9 (send-message): `sendMessage c r` returns, and the outbound queue is the old
queue followed by exactly one packet, of type `SendType`, whose data is the encoding
of `SendCommand{Content: c, Parent: r}`; the inbound queue and the connection are
left alone, and the packet enqueued does not depend on them. -/
theorem sendMessage_enqueues_once (s : Session) (c r : String) :
    ∃ raw, jsonMarshal (.send { Content := c, Parent := r }) = .ok raw ∧
      s.sendMessage c r = .ok
        { s.log .debug ("Sending text message: '" ++ c ++ "'") with
          outbound := s.outbound ++ [{ ID := Itoa s.msgID, «Type» := SendType, Data := raw }] }
        () ∧
      ∀ (inbound : List PacketEvent) (conn : Conn),
        (({ s with inbound := inbound, conn := conn }).sendMessage c r).session.outbound =
          s.outbound ++ [{ ID := Itoa s.msgID, «Type» := SendType, Data := raw }] :=
  ⟨.obj [("content", .str c), ("parent", .str r)], rfl, rfl, fun _ _ => rfl⟩

/-! ## The codec and the two stream loops -/

/-- Decoding an encoded packet gives the packet back. -/
theorem decode_encode (p : PacketEvent) : decode (encode p) = .ok p := by
  cases p
  simp [decode, encode, List.lookup]

/-- A write on a stream with no error in store appends the frame of the packet. -/
theorem WriteJSON_of_no_error (c : Conn) (p : PacketEvent)
    (hw : ∀ e ∈ c.writeErrs, e = none) :
    ∃ c', c.WriteJSON p = (c', none) ∧ c'.written = c.written ++ [encode p] ∧
      c'.incoming = c.incoming ∧ ∀ e ∈ c'.writeErrs, e = none := by
  unfold Conn.WriteJSON
  match hc : c.writeErrs with
  | [] =>
    refine ⟨_, rfl, rfl, rfl, ?_⟩
    simp [hc]
  | none :: rest =>
    refine ⟨_, rfl, rfl, rfl, ?_⟩
    intro e he
    exact hw e (by rw [hc]; exact List.mem_cons_of_mem _ he)
  | some err :: rest =>
    have := hw (some err) (by rw [hc]; exact List.mem_cons_self _ _)
    cases this

/-- The outbound handler on a queue `q`, every write succeeding: one iteration per
packet empties the queue and appends the frames of `q` in order; the iterations
left are run from there. -/
theorem outboundHandler_drains (q : List PacketEvent) :
    ∀ s : Session, s.outbound = q → (∀ e ∈ s.conn.writeErrs, e = none) →
      ∃ s' : Session, (∀ k, s.outboundHandler (q.length + k) = Session.outboundHandler k s') ∧
        s'.outbound = [] ∧ s'.conn.written = s.conn.written ++ q.map encode ∧
        s'.conn.incoming = s.conn.incoming ∧ s'.inbound = s.inbound ∧
        s'.errChan = s.errChan ∧ s'.msgID = s.msgID := by
  induction q with
  | nil =>
    intro s hq _
    exact ⟨s, by simp, hq, by simp, rfl, rfl, rfl, rfl⟩
  | cons p q ih =>
    intro s hq hw
    obtain ⟨c', hc, hwr, hinc, hw'⟩ := WriteJSON_of_no_error s.conn p hw
    obtain ⟨s', hrun, hout, hwritten, hincoming, hinb, herr, hid⟩ :=
      ih { (({ s with outbound := q }).log .debug
          ("Sending packet of type '" ++ p.«Type» ++ "'\n")) with conn := c' } rfl hw'
    refine ⟨s', ?_, hout, ?_, ?_, hinb, herr, hid⟩
    · intro k
      have hlen : (p :: q).length + k = (q.length + k) + 1 := by
        simp only [List.length_cons]; omega
      rw [hlen]
      simp only [Session.outboundHandler, hq]
      simp only [Session.log]
      rw [hc]
      exact hrun k
    · rw [hwritten]
      simp [hwr]
    · rw [hincoming]
      exact hinc

/-- C5 (FIFO preservation): with every write succeeding, `outboundHandler` run for
one iteration per queued packet writes exactly the frames of the queued packets,
one per packet and in queue order, after what was written before; each frame
decodes to its packet; the queue is then empty and the next iteration waits. -/
theorem outboundHandler_fifo (s : Session) (hw : ∀ e ∈ s.conn.writeErrs, e = none) :
    ∃ s' : Session,
      s.outboundHandler s.outbound.length = .running s' ∧
      s'.conn.written = s.conn.written ++ s.outbound.map encode ∧
      (s.outbound.map encode).map decode = s.outbound.map Except.ok ∧
      s'.outbound = [] ∧
      ∀ k, s.outboundHandler (s.outbound.length + (k + 1)) = .blocked s' := by
  obtain ⟨s', hrun, hout, hwritten, -, -, -, -⟩ := outboundHandler_drains s.outbound s rfl hw
  refine ⟨s', ?_, hwritten, ?_, hout, ?_⟩
  · have := hrun 0
    simpa [Session.outboundHandler] using this
  · simp [List.map_map, Function.comp_def, decode_encode]
  · intro k
    rw [hrun (k + 1)]
    simp [Session.outboundHandler, hout]

/-- Witness of C5: two queued packets on a stream with no write error in store. -/
theorem outboundHandler_fifo_witness :
    ∃ s' : Session,
      twoQueued.outboundHandler twoQueued.outbound.length = .running s' ∧
      s'.conn.written = twoQueued.conn.written ++ twoQueued.outbound.map encode ∧
      (twoQueued.outbound.map encode).map decode = twoQueued.outbound.map Except.ok ∧
      s'.outbound = [] ∧
      ∀ k, twoQueued.outboundHandler (twoQueued.outbound.length + (k + 1)) = .blocked s' :=
  outboundHandler_fifo twoQueued (by intro e he; cases he)

/-- C6 (malformed-frame reporting): when the read of the next frame fails, or the
frame read does not decode, `receivePacket` returns that error with the inbound
queue as it was, and `receiver` logs it at fatal level and ends the process at that
iteration, whatever number of iterations it had left; when the frame decodes,
`receivePacket` returns `nil` and appends exactly the decoded packet to the
inbound queue. -/
theorem receivePacket_reports_errors (s : Session) (r : Except String Frame)
    (rest : List (Except String Frame)) (hin : s.conn.incoming = r :: rest) :
    (∀ err, (r = .error err ∨ ∃ frame, r = .ok frame ∧ decode frame = .error err) →
      s.receivePacket = .ok { s with conn := { s.conn with incoming := rest } } (some err) ∧
      ∀ fuel, s.receiver (fuel + 1) =
        .fatal (({ s with conn := { s.conn with incoming := rest } }).log .fatal
            ("Error receiving packet: " ++ err ++ "\n"))
          ("Error receiving packet: " ++ err ++ "\n")) ∧
    (∀ frame packet, r = .ok frame → decode frame = .ok packet →
      s.receivePacket = .ok
        { s with conn := { s.conn with incoming := rest }, inbound := s.inbound ++ [packet] }
        none) := by
  constructor
  · intro err herr
    have hrp : s.receivePacket =
        .ok { s with conn := { s.conn with incoming := rest } } (some err) := by
      rcases herr with h | ⟨frame, h, hd⟩
      · subst h
        simp [Session.receivePacket, Conn.ReadJSON, hin]
      · subst h
        simp [Session.receivePacket, Conn.ReadJSON, hin, hd]
    refine ⟨hrp, fun fuel => ?_⟩
    simp [Session.receiver, hrp, Session.Fatalf]
  · intro frame packet h hd
    subst h
    simp [Session.receivePacket, Conn.ReadJSON, hin, hd]

/-- Witness of C6: a failed read, a frame that does not decode, and a good frame. -/
theorem receivePacket_reports_errors_witness :
    (brokenStream.receivePacket =
        .ok { brokenStream with
              conn := { brokenStream.conn with incoming := [.ok (encode ping1000)] } }
          (some "unexpected EOF") ∧
      ∀ fuel, brokenStream.receiver (fuel + 1) =
        .fatal (({ brokenStream with
              conn := { brokenStream.conn with incoming := [.ok (encode ping1000)] } }).log
            .fatal ("Error receiving packet: " ++ "unexpected EOF" ++ "\n"))
          ("Error receiving packet: " ++ "unexpected EOF" ++ "\n")) ∧
    (garbledStream.receivePacket =
        .ok { garbledStream with
              conn := { garbledStream.conn with incoming := [.ok (encode ping1000)] } }
          (some "decode error: not a JSON object") ∧
      ∀ fuel, garbledStream.receiver (fuel + 1) =
        .fatal (({ garbledStream with
              conn := { garbledStream.conn with incoming := [.ok (encode ping1000)] } }).log
            .fatal ("Error receiving packet: " ++ "decode error: not a JSON object" ++ "\n"))
          ("Error receiving packet: " ++ "decode error: not a JSON object" ++ "\n")) ∧
    pingStream.receivePacket =
      .ok { pingStream with
            conn := { pingStream.conn with incoming := [] },
            inbound := pingStream.inbound ++ [ping1000] }
        none :=
  ⟨(receivePacket_reports_errors brokenStream (.error "unexpected EOF")
      [.ok (encode ping1000)] rfl).1 "unexpected EOF" (Or.inl rfl),
   (receivePacket_reports_errors garbledStream (.ok (.str "garbage"))
      [.ok (encode ping1000)] rfl).1 "decode error: not a JSON object"
      (Or.inr ⟨.str "garbage", rfl, rfl⟩),
   (receivePacket_reports_errors pingStream (.ok (encode ping1000)) [] rfl).2
      (encode ping1000) ping1000 rfl rfl⟩

/-- C7 (round-trip): for every packet `p`, decoding the frame that encodes `p` gives
`p` back, with the same id, type and data; the frame `outboundHandler` writes for
`p` is that encoding, and `receivePacket` reading that frame puts `p` itself on the
inbound queue. -/
theorem packet_roundtrip (p : PacketEvent) :
    decode (encode p) = .ok p ∧
    (∀ s : Session, ∃ s' : Session,
      ({ s with outbound := [p], conn := { s.conn with writeErrs := [] } }).outboundHandler 1 =
        .running s' ∧
      s'.conn.written = s.conn.written ++ [encode p]) ∧
    ∀ (t : Session) (rest : List (Except String Frame)),
      ({ t with conn := { t.conn with incoming := .ok (encode p) :: rest } }).receivePacket =
        .ok { t with conn := { t.conn with incoming := rest }, inbound := t.inbound ++ [p] }
          none := by
  refine ⟨decode_encode p, fun s => ?_, fun t rest => ?_⟩
  · refine ⟨{ (({ s with outbound := [] }).log .debug
        ("Sending packet of type '" ++ p.«Type» ++ "'\n")) with
        conn := { s.conn with written := s.conn.written ++ [encode p], writeErrs := [] } },
      ?_, rfl⟩
    simp [Session.outboundHandler, Conn.WriteJSON, Session.log]
  · simp [Session.receivePacket, Conn.ReadJSON, decode_encode]

/-! ## Startup -/

/-- The goroutines `Run` starts, in the order of the `go` statements. -/
theorem Run_spawned (s : Session) :
    s.Run.1 = (if s.password ≠ "" then [Task.sendAuth] else []) ++
      [Task.outboundHandler, Task.inboundHandler, Task.receiver, Task.sendNick,
        Task.hookServer 8888 "secret"] := by
  unfold Session.Run
  cases s.errChan <;> rfl

/-- The operation `sendPayload` appends at most one packet, of the given type, and
touches neither the connection, the identifier nor the passcode. -/
theorem sendPayload_outbound (s : Session) (payload : Payload) (pType : PacketType) :
    ∃ new : List PacketEvent,
      (s.sendPayload payload pType).session.outbound = s.outbound ++ new ∧
      (∀ q ∈ new, q.«Type» = pType) ∧
      (s.sendPayload payload pType).session.conn = s.conn ∧
      (s.sendPayload payload pType).session.msgID = s.msgID ∧
      (s.sendPayload payload pType).session.password = s.password := by
  cases payload
  case unsupported goType => exact ⟨[], by simp [Session.sendPayload, jsonMarshal,
    Session.Fatalf, Session.log, Result.session], by simp, rfl, rfl, rfl⟩
  all_goals exact ⟨[_], rfl, by simp, rfl, rfl, rfl⟩

/-- The operation `handlePing` appends only heartbeat replies. -/
theorem handlePing_outbound (s : Session) (p : PacketEvent) :
    ∃ new : List PacketEvent,
      (s.handlePing p).session.outbound = s.outbound ++ new ∧
      (∀ q ∈ new, q.«Type» = PingReplyType) ∧
      (s.handlePing p).session.conn = s.conn ∧
      (s.handlePing p).session.msgID = s.msgID ∧
      (s.handlePing p).session.password = s.password := by
  unfold Session.handlePing
  cases p.Payload with
  | error err => exact ⟨[], by simp [Result.session, Session.log], by simp, rfl, rfl, rfl⟩
  | ok data =>
    cases data with
    | pingEvent e =>
      exact sendPayload_outbound (s.log .debug "Handling ping.") _ PingReplyType
    | other tag d => exact ⟨[], by simp [Result.session, Session.log], by simp, rfl, rfl, rfl⟩

/-- The loop `inboundHandler` appends only heartbeat replies to the outbound queue. -/
theorem inboundHandler_outbound (fuel : Nat) :
    ∀ s : Session, ∃ new : List PacketEvent,
      (s.inboundHandler fuel).session.outbound = s.outbound ++ new ∧
      (∀ q ∈ new, q.«Type» = PingReplyType) ∧
      (s.inboundHandler fuel).session.conn = s.conn ∧
      (s.inboundHandler fuel).session.msgID = s.msgID ∧
      (s.inboundHandler fuel).session.password = s.password := by
  induction fuel with
  | zero => intro s; exact ⟨[], by simp [Session.inboundHandler, Result.session], by simp,
      rfl, rfl, rfl⟩
  | succ n ih =>
    intro s
    unfold Session.inboundHandler
    cases hin : s.inbound with
    | nil => exact ⟨[], by simp [Result.session], by simp, rfl, rfl, rfl⟩
    | cons packet rest =>
      by_cases hty : packet.«Type» = PingEventType
      · simp only [hty, if_true]
        obtain ⟨new₁, h₁, hty₁, hc₁, hid₁, hpw₁⟩ := handlePing_outbound
          (({ s with inbound := rest }).log .debug
            ("Receiving packet of type '" ++ PingEventType ++ "'\n")) packet
        cases hres : Session.handlePing
          (({ s with inbound := rest }).log .debug
            ("Receiving packet of type '" ++ PingEventType ++ "'\n")) packet with
        | ok s₁ a =>
          rw [hres] at h₁ hc₁ hid₁ hpw₁
          obtain ⟨new₂, h₂, hty₂, hc₂, hid₂, hpw₂⟩ := ih s₁
          refine ⟨new₁ ++ new₂, ?_, ?_, ?_, ?_, ?_⟩
          · show (Session.inboundHandler n s₁).session.outbound = _
            rw [h₂]
            simp only [Result.session] at h₁
            rw [h₁]
            simp [Session.log]
          · intro q hq
            rcases List.mem_append.mp hq with hq | hq
            · exact hty₁ q hq
            · exact hty₂ q hq
          · show (Session.inboundHandler n s₁).session.conn = _
            rw [hc₂]; exact hc₁
          · show (Session.inboundHandler n s₁).session.msgID = _
            rw [hid₂]; exact hid₁
          · show (Session.inboundHandler n s₁).session.password = _
            rw [hpw₂]; exact hpw₁
        | running s₁ => rw [hres] at h₁ hc₁ hid₁ hpw₁; exact ⟨new₁, h₁, hty₁, hc₁, hid₁, hpw₁⟩
        | blocked s₁ => rw [hres] at h₁ hc₁ hid₁ hpw₁; exact ⟨new₁, h₁, hty₁, hc₁, hid₁, hpw₁⟩
        | fatal s₁ msg => rw [hres] at h₁ hc₁ hid₁ hpw₁; exact ⟨new₁, h₁, hty₁, hc₁, hid₁, hpw₁⟩
        | panic s₁ err => rw [hres] at h₁ hc₁ hid₁ hpw₁; exact ⟨new₁, h₁, hty₁, hc₁, hid₁, hpw₁⟩
      · simp only [hty, if_false]
        exact ih _

/-- A read leaves the frames written as they were. -/
theorem ReadJSON_written (c c' : Conn) (r : Except String PacketEvent)
    (h : c.ReadJSON = some (c', r)) : c'.written = c.written := by
  unfold Conn.ReadJSON at h
  match hinc : c.incoming with
  | [] => simp [hinc] at h
  | .error err :: rest =>
    simp only [hinc, Option.some.injEq, Prod.mk.injEq] at h
    rw [← h.1]
  | .ok frame :: rest =>
    simp only [hinc, Option.some.injEq, Prod.mk.injEq] at h
    rw [← h.1]

/-- The operation `receivePacket` leaves the outbound queue, the frames written, the
identifier and the passcode as they were. -/
theorem receivePacket_keeps (s : Session) :
    s.receivePacket.session.outbound = s.outbound ∧
    s.receivePacket.session.conn.written = s.conn.written ∧
    s.receivePacket.session.msgID = s.msgID ∧
    s.receivePacket.session.password = s.password := by
  unfold Session.receivePacket
  cases h : s.conn.ReadJSON with
  | none => exact ⟨rfl, rfl, rfl, rfl⟩
  | some pr =>
    obtain ⟨conn, r⟩ := pr
    have hw := ReadJSON_written s.conn conn r h
    cases r with
    | error err => exact ⟨rfl, hw, rfl, rfl⟩
    | ok packet => exact ⟨rfl, hw, rfl, rfl⟩

/-- The loop `receiver` leaves the outbound queue, the frames written, the identifier
and the passcode as they were. -/
theorem receiver_keeps (fuel : Nat) :
    ∀ s : Session,
      (s.receiver fuel).session.outbound = s.outbound ∧
      (s.receiver fuel).session.conn.written = s.conn.written ∧
      (s.receiver fuel).session.msgID = s.msgID ∧
      (s.receiver fuel).session.password = s.password := by
  induction fuel with
  | zero => intro s; exact ⟨rfl, rfl, rfl, rfl⟩
  | succ n ih =>
    intro s
    have hk := receivePacket_keeps s
    unfold Session.receiver
    cases hres : s.receivePacket with
    | ok s₁ a =>
      rw [hres] at hk
      simp only [Result.session] at hk
      cases a with
      | none =>
        obtain ⟨h₁, h₂, h₃, h₄⟩ := ih s₁
        exact ⟨h₁.trans hk.1, h₂.trans hk.2.1, h₃.trans hk.2.2.1, h₄.trans hk.2.2.2⟩
      | some err => exact hk
    | running s₁ => rw [hres] at hk; exact hk
    | blocked s₁ => rw [hres] at hk; exact hk
    | fatal s₁ msg => rw [hres] at hk; exact hk
    | panic s₁ err => rw [hres] at hk; exact hk

/-- A write that succeeds appends the frame of the packet to the frames written. -/
theorem WriteJSON_written (c c' : Conn) (p : PacketEvent) (h : c.WriteJSON p = (c', none)) :
    c'.written = c.written ++ [encode p] := by
  unfold Conn.WriteJSON at h
  match hw : c.writeErrs with
  | some err :: more => simp [hw] at h
  | none :: more =>
    simp only [hw, Prod.mk.injEq] at h
    rw [← h.1]
  | [] =>
    simp only [hw, Prod.mk.injEq] at h
    rw [← h.1]

/-- The loop `outboundHandler` keeps the identifier and the passcode, and as long as
it does not end the process it keeps the outbound frames: what it takes off the
queue it writes to the stream. -/
theorem outboundHandler_keeps (fuel : Nat) :
    ∀ s : Session,
      (s.outboundHandler fuel).session.msgID = s.msgID ∧
      (s.outboundHandler fuel).session.password = s.password ∧
      ((s.outboundHandler fuel).exited = false →
        onWire (s.outboundHandler fuel).session = onWire s) := by
  induction fuel with
  | zero => intro s; exact ⟨rfl, rfl, fun _ => rfl⟩
  | succ n ih =>
    intro s
    unfold Session.outboundHandler
    cases hout : s.outbound with
    | nil => exact ⟨rfl, rfl, fun _ => by simp [Result.session, onWire, hout]⟩
    | cons packet rest =>
      simp only
      cases hw : Conn.WriteJSON
        (({ s with outbound := rest }).log .debug
          ("Sending packet of type '" ++ packet.«Type» ++ "'\n")).conn packet with
      | mk conn res =>
        cases res with
        | some err =>
          exact ⟨rfl, rfl, fun h => by simp [Session.Fatalf, Result.exited] at h⟩
        | none =>
          have hwr := WriteJSON_written _ conn packet hw
          obtain ⟨hid, hpw, hwire⟩ := ih
            { (({ s with outbound := rest }).log .debug
                ("Sending packet of type '" ++ packet.«Type» ++ "'\n")) with conn := conn }
          refine ⟨hid, hpw, fun h => ?_⟩
          rw [hwire h]
          simp only [onWire, hwr, Session.log, hout]
          simp

/-- The startup packets depend on the identifier and the passcode only. -/
theorem startupPacket_congr (s s' : Session) (hid : s'.msgID = s.msgID)
    (hpw : s'.password = s.password) : startupPacket s' = startupPacket s := by
  funext t
  cases t <;> simp [startupPacket, hid, hpw]

/-- One turn of any goroutine keeps the identifier and the passcode; what it sends on
the outbound channel is, heartbeat replies apart, its own startup command if it has
one; and unless it ends the process the outbound frames grow by exactly what it
sent. -/
theorem turn_facts (s : Session) (t : Turn) :
    (s.turn t).session.msgID = s.msgID ∧ (s.turn t).session.password = s.password ∧
    (enqueuedIn s t.task (s.turn t).session).filter (fun p => p.«Type» != PingReplyType) =
      (startupPacket s t.task).toList ∧
    ((s.turn t).exited = false →
      onWire (s.turn t).session =
        onWire s ++ (enqueuedIn s t.task (s.turn t).session).map encode) := by
  obtain ⟨task, fuel⟩ := t
  cases task with
  | sendAuth =>
    refine ⟨rfl, rfl, ?_, fun _ => ?_⟩
    · simp [Session.turn, Session.sendAuth, Session.sendPayload, jsonMarshal,
        RawMessage.UnmarshalJSON, Session.log, Result.session, enqueuedIn, startupPacket,
        AuthType, PingReplyType]
    · simp [Session.turn, Session.sendAuth, Session.sendPayload, jsonMarshal,
        RawMessage.UnmarshalJSON, Session.log, Result.session, enqueuedIn, onWire]
  | sendNick =>
    refine ⟨rfl, rfl, ?_, fun _ => ?_⟩
    · simp [Session.turn, Session.sendNick, Session.sendPayload, jsonMarshal,
        RawMessage.UnmarshalJSON, Session.log, Result.session, enqueuedIn, startupPacket,
        NickType, PingReplyType]
    · simp [Session.turn, Session.sendNick, Session.sendPayload, jsonMarshal,
        RawMessage.UnmarshalJSON, Session.log, Result.session, enqueuedIn, onWire]
  | outboundHandler =>
    obtain ⟨hid, hpw, hwire⟩ := outboundHandler_keeps fuel s
    refine ⟨hid, hpw, by simp [enqueuedIn, startupPacket], fun h => ?_⟩
    simpa [enqueuedIn] using hwire h
  | inboundHandler =>
    obtain ⟨new, hout, hty, hconn, hid, hpw⟩ := inboundHandler_outbound fuel s
    have hdrop : enqueuedIn s Task.inboundHandler (s.inboundHandler fuel).session = new := by
      simp [enqueuedIn, hout]
    refine ⟨hid, hpw, ?_, fun _ => ?_⟩
    · show (enqueuedIn s Task.inboundHandler (s.inboundHandler fuel).session).filter _ = _
      rw [hdrop]
      simp only [startupPacket, Option.toList]
      rw [List.filter_eq_nil_iff]
      intro q hq
      simp [hty q hq]
    · show onWire (s.inboundHandler fuel).session =
        onWire s ++ (enqueuedIn s Task.inboundHandler (s.inboundHandler fuel).session).map encode
      rw [hdrop]
      simp [onWire, hout, hconn]
  | receiver =>
    obtain ⟨hout, hwr, hid, hpw⟩ := receiver_keeps fuel s
    have hdrop : enqueuedIn s Task.receiver (s.receiver fuel).session = [] := by
      simp [enqueuedIn, hout]
    refine ⟨hid, hpw, ?_, fun _ => ?_⟩
    · show (enqueuedIn s Task.receiver (s.receiver fuel).session).filter _ = _
      rw [hdrop]
      simp [startupPacket]
    · show onWire (s.receiver fuel).session =
        onWire s ++ (enqueuedIn s Task.receiver (s.receiver fuel).session).map encode
      rw [hdrop]
      simp [onWire, hout, hwr]
  | hookServer port secret =>
    refine ⟨rfl, rfl, ?_, fun _ => ?_⟩
    · simp [Session.turn, Session.hookServer, Result.session, enqueuedIn, startupPacket]
    · simp [Session.turn, Session.hookServer, Result.session, enqueuedIn, onWire]

/-- A run under any schedule: the turns taken are a prefix of the schedule, the whole
of it unless a turn ended the process; what was sent on the outbound channel is,
heartbeat replies apart, the startup commands of the turns taken, in that order; and
unless the process ended the outbound frames grew by exactly what was sent. -/
theorem startup_trace (sched : List Turn) :
    ∀ s : Session, ∃ done : List Turn, done <+: sched ∧
      ((s.startup sched).2.exited = false → done = sched) ∧
      (s.startup sched).1.filter (fun p => p.«Type» != PingReplyType) =
        (done.map Turn.task).filterMap (startupPacket s) ∧
      ((s.startup sched).2.exited = false →
        onWire (s.startup sched).2.session = onWire s ++ (s.startup sched).1.map encode) := by
  induction sched with
  | nil =>
    intro s
    exact ⟨[], List.prefix_refl _, fun _ => rfl, rfl, fun _ => by simp [Session.startup,
      Result.session]⟩
  | cons t ts ih =>
    intro s
    obtain ⟨hid, hpw, hfil, hwire⟩ := turn_facts s t
    by_cases hex : (s.turn t).exited = true
    · refine ⟨[t], ?_, ?_, ?_, ?_⟩
      · exact List.prefix_iff_eq_append.mpr (by simp)
      · intro h
        simp [Session.startup, hex] at h
      · simp only [Session.startup, hex, if_true, List.map_cons, List.map_nil,
          List.filterMap_cons, List.filterMap_nil]
        rw [hfil]
        cases startupPacket s t.task <;> rfl
      · intro h
        simp [Session.startup, hex] at h
    · have hex' : (s.turn t).exited = false := by simpa using hex
      obtain ⟨done, hpre, hall, hfil', hwire'⟩ := ih (s.turn t).session
      rw [startupPacket_congr s (s.turn t).session hid hpw] at hfil'
      refine ⟨t :: done, ?_, ?_, ?_, ?_⟩
      · obtain ⟨r, hr⟩ := hpre
        exact ⟨r, by simp [hr]⟩
      · intro h
        simp only [Session.startup, hex', Bool.false_eq_true, if_false] at h
        rw [hall h]
      · simp only [Session.startup, hex', Bool.false_eq_true, if_false, List.filter_append,
          List.map_cons, List.filterMap_cons]
        rw [hfil, hfil']
        cases startupPacket s t.task <;> rfl
      · intro h
        simp only [Session.startup, hex', Bool.false_eq_true, if_false] at h ⊢
        rw [hwire' h, hwire hex']
        simp

/-- Among the startup commands of a list of goroutines, the Auth packets are one per
`sendAuth`. -/
theorem startupPackets_auth (s : Session) (l : List Task) :
    (l.filterMap (startupPacket s)).filter (fun p => p.«Type» == AuthType) =
      List.replicate (l.count Task.sendAuth)
        { ID := Itoa s.msgID, «Type» := AuthType,
          Data := .obj [("type", .str "passcode"), ("passcode", .str s.password)] } := by
  have hne₁ : (NickType == AuthType) = false := by decide
  have hne₂ : (AuthType == NickType) = false := by decide
  induction l with
  | nil => rfl
  | cons t ts ih =>
    cases t <;>
      simp [List.filterMap_cons, startupPacket, List.filter_cons, List.count_cons, ih,
        List.replicate_succ, hne₁, hne₂]

/-- Among the startup commands of a list of goroutines, the Nick packets are one per
`sendNick`. -/
theorem startupPackets_nick (s : Session) (l : List Task) :
    (l.filterMap (startupPacket s)).filter (fun p => p.«Type» == NickType) =
      List.replicate (l.count Task.sendNick)
        { ID := Itoa s.msgID, «Type» := NickType,
          Data := .obj [("name", .str "GithubBot")] } := by
  have hne₁ : (NickType == AuthType) = false := by decide
  have hne₂ : (AuthType == NickType) = false := by decide
  induction l with
  | nil => rfl
  | cons t ts ih =>
    cases t <;>
      simp [List.filterMap_cons, startupPacket, List.filter_cons, List.count_cons, ih,
        List.replicate_succ, hne₁, hne₂]

/-- Without a `sendAuth`, the startup commands of a list of goroutines are one Nick
packet per `sendNick`. -/
theorem startupPackets_no_auth (s : Session) (l : List Task)
    (h : l.count Task.sendAuth = 0) :
    l.filterMap (startupPacket s) =
      List.replicate (l.count Task.sendNick)
        { ID := Itoa s.msgID, «Type» := NickType,
          Data := .obj [("name", .str "GithubBot")] } := by
  induction l with
  | nil => rfl
  | cons t ts ih =>
    cases t <;>
      simp_all [List.filterMap_cons, startupPacket, List.count_cons, List.replicate_succ]

/-- Heartbeat replies apart, the Auth packets sent are the Auth packets among the
startup commands sent. -/
theorem filter_auth_of_not_reply (l : List PacketEvent) :
    l.filter (fun p => p.«Type» == AuthType) =
      (l.filter (fun p => p.«Type» != PingReplyType)).filter (fun p => p.«Type» == AuthType) := by
  rw [List.filter_filter]
  apply List.filter_congr
  intro p _
  by_cases h : p.«Type» = AuthType
  · simp [h, AuthType, PingReplyType]
  · simp [h]

/-- Heartbeat replies apart, the Nick packets sent are the Nick packets among the
startup commands sent. -/
theorem filter_nick_of_not_reply (l : List PacketEvent) :
    l.filter (fun p => p.«Type» == NickType) =
      (l.filter (fun p => p.«Type» != PingReplyType)).filter (fun p => p.«Type» == NickType) := by
  rw [List.filter_filter]
  apply List.filter_congr
  intro p _
  by_cases h : p.«Type» = NickType
  · simp [h, NickType, PingReplyType]
  · simp [h]

/-- C3, as the claim states it, fails: with the passcode "xyz" on a stream whose first
read fails, in a schedule of the goroutines `Run` starts in which the receiver has
the first turn, the receiver ends the process before `sendAuth` runs, and no
packet of type `AuthType` is enqueued. -/
theorem startup_exit_before_auth :
    (receiverFirst.map Turn.task).Perm brokenWithPasscode.Run.1 ∧
    brokenWithPasscode.password ≠ "" ∧
    (brokenWithPasscode.startup receiverFirst).2.exited = true ∧
    (brokenWithPasscode.startup receiverFirst).1 = [] ∧
    (brokenWithPasscode.startup receiverFirst).1.filter (fun p => p.«Type» == AuthType) = [] :=
  ⟨by decide, by decide, rfl, rfl, rfl⟩

/-- C3, amended (conditional auth): `Run` starts `sendAuth` exactly when the passcode
is non-empty, and then once; `sendAuth` enqueues exactly one packet, of type
`AuthType`, whose data is the encoding of `AuthCommand{Type: "passcode", Passcode: P}`;
in every schedule in which the loops take turns of any length and `sendAuth` has
the turn `Run` gave it, no packet of type `AuthType` is enqueued for an empty
passcode, at most one is enqueued in any case, and for a non-empty passcode exactly
one, that Auth packet, unless a goroutine ended the process; in a run that did not
end the process the frames written or queued grew by exactly the packets enqueued. -/
theorem Run_conditional_auth (s : Session) (sched : List Turn)
    (hauth : (sched.map Turn.task).count Task.sendAuth = s.Run.1.count Task.sendAuth) :
    (Task.sendAuth ∈ s.Run.1 ↔ s.password ≠ "") ∧
    s.Run.1.count Task.sendAuth = (if s.password = "" then 0 else 1) ∧
    ∃ raw : RawMessage,
      jsonMarshal (.auth { «Type» := "passcode", Passcode := s.password }) = .ok raw ∧
      s.sendAuth = .ok
        { s.log .debug "Sending auth." with
          outbound :=
            s.outbound ++ [{ ID := Itoa s.msgID, «Type» := AuthType, Data := raw }] }
        () ∧
      (s.password = "" →
        (s.startup sched).1.filter (fun p => p.«Type» == AuthType) = []) ∧
      ((s.startup sched).1.filter (fun p => p.«Type» == AuthType) = [] ∨
        (s.startup sched).1.filter (fun p => p.«Type» == AuthType) =
          [{ ID := Itoa s.msgID, «Type» := AuthType, Data := raw }]) ∧
      ((s.startup sched).2.exited = false → s.password ≠ "" →
        (s.startup sched).1.filter (fun p => p.«Type» == AuthType) =
          [{ ID := Itoa s.msgID, «Type» := AuthType, Data := raw }]) ∧
      ((s.startup sched).2.exited = false →
        onWire (s.startup sched).2.session = onWire s ++ (s.startup sched).1.map encode) := by
  have hcount : s.Run.1.count Task.sendAuth = (if s.password = "" then 0 else 1) := by
    rw [Run_spawned]
    by_cases hpw : s.password = "" <;> simp [hpw]
  obtain ⟨done, hpre, hall, hfil, hwire⟩ := startup_trace sched s
  have hfa := filter_auth_of_not_reply (s.startup sched).1
  rw [hfil, startupPackets_auth] at hfa
  have hle : (done.map Turn.task).count Task.sendAuth ≤ s.Run.1.count Task.sendAuth := by
    rw [← hauth]
    exact (hpre.map Turn.task).sublist.count_le _
  refine ⟨?_, hcount, _, rfl, rfl, ?_, ?_, ?_, hwire⟩
  · rw [Run_spawned]
    by_cases hpw : s.password = "" <;> simp [hpw]
  · intro hpw
    rw [hcount, if_pos hpw] at hle
    rw [hfa, Nat.le_zero.mp hle]
    rfl
  · rw [hcount] at hle
    have h1 : (done.map Turn.task).count Task.sendAuth ≤ 1 := by
      split at hle <;> omega
    rcases Nat.le_one_iff_eq_zero_or_eq_one.mp h1 with h0 | h1
    · left; rw [hfa, h0]; rfl
    · right; rw [hfa, h1]; rfl
  · intro hex hpw
    rw [hfa, hall hex, hauth, hcount, if_neg hpw]
    rfl

/-- Witness of C3 amended: the passcode "xyz" on a quiet stream, the Nick sender
scheduled before the Auth sender and the loops in between. -/
theorem Run_conditional_auth_witness :
    (interleaved.map Turn.task).count Task.sendAuth = withPasscode.Run.1.count Task.sendAuth ∧
    (withPasscode.startup interleaved).2.exited = false ∧
    (withPasscode.startup interleaved).1 =
      [{ ID := "0", «Type» := NickType, Data := .obj [("name", .str "GithubBot")] },
       { ID := "0", «Type» := AuthType,
         Data := .obj [("type", .str "passcode"), ("passcode", .str "xyz")] }] ∧
    (Task.sendAuth ∈ withPasscode.Run.1 ↔ withPasscode.password ≠ "") ∧
    withPasscode.Run.1.count Task.sendAuth = (if withPasscode.password = "" then 0 else 1) ∧
    ∃ raw : RawMessage,
      jsonMarshal (.auth { «Type» := "passcode", Passcode := withPasscode.password }) = .ok raw ∧
      withPasscode.sendAuth = .ok
        { withPasscode.log .debug "Sending auth." with
          outbound :=
            withPasscode.outbound ++ [{ ID := Itoa withPasscode.msgID, «Type» := AuthType, Data := raw }] }
        () ∧
      (withPasscode.password = "" →
        (withPasscode.startup interleaved).1.filter (fun p => p.«Type» == AuthType) = []) ∧
      ((withPasscode.startup interleaved).1.filter (fun p => p.«Type» == AuthType) = [] ∨
        (withPasscode.startup interleaved).1.filter (fun p => p.«Type» == AuthType) =
          [{ ID := Itoa withPasscode.msgID, «Type» := AuthType, Data := raw }]) ∧
      ((withPasscode.startup interleaved).2.exited = false → withPasscode.password ≠ "" →
        (withPasscode.startup interleaved).1.filter (fun p => p.«Type» == AuthType) =
          [{ ID := Itoa withPasscode.msgID, «Type» := AuthType, Data := raw }]) ∧
      ((withPasscode.startup interleaved).2.exited = false →
        onWire (withPasscode.startup interleaved).2.session = onWire withPasscode ++ (withPasscode.startup interleaved).1.map encode) :=
  ⟨by decide, rfl, rfl, Run_conditional_auth withPasscode interleaved (by decide)⟩

/-- C4, as the claim states it, fails: with an empty passcode on a stream whose first
read fails, the goroutines scheduled in the order of the `go` statements, the
receiver ends the process before `sendNick` runs and no packet is enqueued; and on a
stream that delivers a heartbeat, received and handled before `sendNick` runs, the
outbound sequence is the heartbeat reply followed by the Nick packet, not the Nick
packet alone. -/
theorem startup_exit_before_nick :
    goOrder.map Turn.task = brokenStream.Run.1 ∧
    brokenStream.password = "" ∧
    (brokenStream.startup goOrder).2.exited = true ∧
    (brokenStream.startup goOrder).1 = [] ∧
    (pingFirst.map Turn.task).Perm pingStream.Run.1 ∧
    pingStream.password = "" ∧
    (pingStream.startup pingFirst).2.exited = false ∧
    (pingStream.startup pingFirst).1 =
      [{ ID := "0", «Type» := PingReplyType, Data := .obj [("time", .num 1000)] },
       { ID := "0", «Type» := NickType, Data := .obj [("name", .str "GithubBot")] }] :=
  ⟨rfl, rfl, rfl, rfl, by decide, rfl, rfl, rfl⟩

/-- C4, amended (startup command): whatever the passcode, `Run` starts `sendNick`
once; `sendNick` enqueues exactly one packet, of type `NickType`, whose data is the
encoding of the fixed `NickCommand{Name: "GithubBot"}`; in every schedule in which
the loops take turns of any length and each command sender has the turn `Run` gave
it, at most one packet of type `NickType` is enqueued, and exactly one, that Nick
packet, unless a goroutine ended the process; with an empty passcode the packets
enqueued are then, heartbeat replies apart, exactly that one Nick packet; in a run
that did not end the process the frames written or queued grew by exactly the
packets enqueued. -/
theorem Run_sends_one_nick (s : Session) (sched : List Turn)
    (hnick : (sched.map Turn.task).count Task.sendNick = s.Run.1.count Task.sendNick)
    (hauth : (sched.map Turn.task).count Task.sendAuth = s.Run.1.count Task.sendAuth) :
    s.Run.1.count Task.sendNick = 1 ∧
    ∃ raw : RawMessage,
      jsonMarshal (.nick { Name := "GithubBot" }) = .ok raw ∧
      s.sendNick = .ok
        { s.log .debug "Sending nick." with
          outbound :=
            s.outbound ++ [{ ID := Itoa s.msgID, «Type» := NickType, Data := raw }] }
        () ∧
      ((s.startup sched).1.filter (fun p => p.«Type» == NickType) = [] ∨
        (s.startup sched).1.filter (fun p => p.«Type» == NickType) =
          [{ ID := Itoa s.msgID, «Type» := NickType, Data := raw }]) ∧
      ((s.startup sched).2.exited = false →
        (s.startup sched).1.filter (fun p => p.«Type» == NickType) =
          [{ ID := Itoa s.msgID, «Type» := NickType, Data := raw }]) ∧
      ((s.startup sched).2.exited = false → s.password = "" →
        (s.startup sched).1.filter (fun p => p.«Type» != PingReplyType) =
          [{ ID := Itoa s.msgID, «Type» := NickType, Data := raw }]) ∧
      ((s.startup sched).2.exited = false →
        onWire (s.startup sched).2.session = onWire s ++ (s.startup sched).1.map encode) := by
  have hcount : s.Run.1.count Task.sendNick = 1 := by
    rw [Run_spawned]
    by_cases hpw : s.password = "" <;> simp [hpw]
  have hcountA : s.Run.1.count Task.sendAuth = (if s.password = "" then 0 else 1) := by
    rw [Run_spawned]
    by_cases hpw : s.password = "" <;> simp [hpw]
  obtain ⟨done, hpre, hall, hfil, hwire⟩ := startup_trace sched s
  have hfn := filter_nick_of_not_reply (s.startup sched).1
  rw [hfil, startupPackets_nick] at hfn
  have hle : (done.map Turn.task).count Task.sendNick ≤ 1 := by
    rw [← hcount, ← hnick]
    exact (hpre.map Turn.task).sublist.count_le _
  refine ⟨hcount, _, rfl, rfl, ?_, ?_, ?_, hwire⟩
  · rcases Nat.le_one_iff_eq_zero_or_eq_one.mp hle with h0 | h1
    · left; rw [hfn, h0]; rfl
    · right; rw [hfn, h1]; rfl
  · intro hex
    rw [hfn, hall hex, hnick, hcount]
    rfl
  · intro hex hpw
    have h0 : (sched.map Turn.task).count Task.sendAuth = 0 := by
      rw [hauth, hcountA, if_pos hpw]
    rw [hfil, hall hex, startupPackets_no_auth s _ h0, hnick, hcount]
    rfl

/-- Witness of C4 amended: the empty passcode on a stream that delivers a heartbeat,
answered before the Nick sender runs. -/
theorem Run_sends_one_nick_witness :
    (pingFirst.map Turn.task).count Task.sendNick = pingStream.Run.1.count Task.sendNick ∧
    (pingFirst.map Turn.task).count Task.sendAuth = pingStream.Run.1.count Task.sendAuth ∧
    (pingStream.startup pingFirst).2.exited = false ∧
    pingStream.Run.1.count Task.sendNick = 1 ∧
    ∃ raw : RawMessage,
      jsonMarshal (.nick { Name := "GithubBot" }) = .ok raw ∧
      pingStream.sendNick = .ok
        { pingStream.log .debug "Sending nick." with
          outbound :=
            pingStream.outbound ++ [{ ID := Itoa pingStream.msgID, «Type» := NickType, Data := raw }] }
        () ∧
      ((pingStream.startup pingFirst).1.filter (fun p => p.«Type» == NickType) = [] ∨
        (pingStream.startup pingFirst).1.filter (fun p => p.«Type» == NickType) =
          [{ ID := Itoa pingStream.msgID, «Type» := NickType, Data := raw }]) ∧
      ((pingStream.startup pingFirst).2.exited = false →
        (pingStream.startup pingFirst).1.filter (fun p => p.«Type» == NickType) =
          [{ ID := Itoa pingStream.msgID, «Type» := NickType, Data := raw }]) ∧
      ((pingStream.startup pingFirst).2.exited = false → pingStream.password = "" →
        (pingStream.startup pingFirst).1.filter (fun p => p.«Type» != PingReplyType) =
          [{ ID := Itoa pingStream.msgID, «Type» := NickType, Data := raw }]) ∧
      ((pingStream.startup pingFirst).2.exited = false →
        onWire (pingStream.startup pingFirst).2.session = onWire pingStream ++ (pingStream.startup pingFirst).1.map encode) :=
  ⟨by decide, by decide, rfl,
    Run_sends_one_nick pingStream pingFirst (by decide) (by decide)⟩

/-! ## The identifier and the error channel -/

/-- The operation `sendPayload` keeps the invariant. -/
theorem sendPayload_inv (m : Int) (s : Session) (payload : Payload) (pType : PacketType)
    (h : Inv m s) : Inv m (s.sendPayload payload pType).session := by
  obtain ⟨hid, herr, hout⟩ := h
  cases payload <;>
    simp [Session.sendPayload, jsonMarshal, RawMessage.UnmarshalJSON, Result.session,
      Session.Fatalf, Session.log, Inv, hid, herr] <;>
    first
      | exact hout
      | (intro p hp
         rcases hp with hp | hp
         · exact hout p hp
         · rw [hp])

/-- The operation `handlePing` keeps the invariant. -/
theorem handlePing_inv (m : Int) (s : Session) (p : PacketEvent) (h : Inv m s) :
    Inv m (s.handlePing p).session := by
  unfold Session.handlePing
  cases p.Payload with
  | error err => exact h
  | ok data =>
    cases data with
    | pingEvent e => exact sendPayload_inv m _ _ _ h
    | other tag d => exact h

/-- The operation `receivePacket` keeps the invariant. -/
theorem receivePacket_inv (m : Int) (s : Session) (h : Inv m s) :
    Inv m s.receivePacket.session := by
  unfold Session.receivePacket
  match s.conn.ReadJSON with
  | none => exact h
  | some (conn, .error err) => exact h
  | some (conn, .ok packet) => exact h

/-- The loop `receiver` keeps the invariant. -/
theorem receiver_inv (m : Int) (fuel : Nat) :
    ∀ s : Session, Inv m s → Inv m (s.receiver fuel).session := by
  induction fuel with
  | zero => intro s h; exact h
  | succ n ih =>
    intro s h
    have hr := receivePacket_inv m s h
    unfold Session.receiver
    cases hres : s.receivePacket with
    | ok s₁ a =>
      rw [hres] at hr
      cases a with
      | none => exact ih s₁ hr
      | some err => exact hr
    | running s₁ => rw [hres] at hr; exact hr
    | blocked s₁ => rw [hres] at hr; exact hr
    | fatal s₁ msg => rw [hres] at hr; exact hr
    | panic s₁ err => rw [hres] at hr; exact hr

/-- The loop `inboundHandler` keeps the invariant. -/
theorem inboundHandler_inv (m : Int) (fuel : Nat) :
    ∀ s : Session, Inv m s → Inv m (s.inboundHandler fuel).session := by
  induction fuel with
  | zero => intro s h; exact h
  | succ n ih =>
    intro s h
    unfold Session.inboundHandler
    cases hin : s.inbound with
    | nil => exact h
    | cons packet rest =>
      by_cases hty : packet.«Type» = PingEventType
      · simp only [hty, if_true]
        have hp := handlePing_inv m
          (({ s with inbound := rest }).log .debug
            ("Receiving packet of type '" ++ PingEventType ++ "'\n")) packet h
        cases hres : Session.handlePing
          (({ s with inbound := rest }).log .debug
            ("Receiving packet of type '" ++ PingEventType ++ "'\n")) packet with
        | ok s₁ a => rw [hres] at hp; exact ih s₁ hp
        | running s₁ => rw [hres] at hp; exact hp
        | blocked s₁ => rw [hres] at hp; exact hp
        | fatal s₁ msg => rw [hres] at hp; exact hp
        | panic s₁ err => rw [hres] at hp; exact hp
      · simp only [hty, if_false]
        exact ih _ h

/-- The loop `outboundHandler` keeps the invariant. -/
theorem outboundHandler_inv (m : Int) (fuel : Nat) :
    ∀ s : Session, Inv m s → Inv m (s.outboundHandler fuel).session := by
  induction fuel with
  | zero => intro s h; exact h
  | succ n ih =>
    intro s h
    unfold Session.outboundHandler
    cases hout : s.outbound with
    | nil => exact h
    | cons packet rest =>
      have h' : Inv m { s with outbound := rest } := by
        refine ⟨h.1, h.2.1, fun p hp => h.2.2 p ?_⟩
        rw [hout]
        exact List.mem_cons_of_mem _ hp
      simp only
      cases hw : Conn.WriteJSON
        (({ s with outbound := rest }).log .debug
          ("Sending packet of type '" ++ packet.«Type» ++ "'\n")).conn packet with
      | mk conn res =>
        cases res with
        | none => exact ih _ h'
        | some err => exact h'

/-- The wait of `Run` on the error channel keeps the invariant, and with nothing on
the channel it does not return. -/
theorem Run_inv (m : Int) (s : Session) (h : Inv m s) :
    Inv m s.Run.2.session ∧ s.Run.2 = .blocked s := by
  have : s.Run.2 = .blocked s := by
    unfold Session.Run
    rw [h.2.1]
  exact ⟨by rw [this]; exact h, this⟩

/-- Every state reached from a state with the invariant has the invariant. -/
theorem reachable_inv (m : Int) (s₀ s : Session) (h₀ : Inv m s₀) (hr : Reachable s₀ s) :
    Inv m s := by
  induction hr with
  | init => exact h₀
  | receivePacket _ ih => exact receivePacket_inv m _ ih
  | receiver fuel _ ih => exact receiver_inv m fuel _ ih
  | sendPayload payload pType _ ih => exact sendPayload_inv m _ payload pType ih
  | sendAuth _ ih =>
    unfold Session.sendAuth
    exact sendPayload_inv m (Session.log _ _ _) _ _ ih
  | sendNick _ ih =>
    unfold Session.sendNick
    exact sendPayload_inv m (Session.log _ _ _) _ _ ih
  | sendMessage text parent _ ih =>
    unfold Session.sendMessage
    exact sendPayload_inv m (Session.log _ _ _) _ _ ih
  | handlePing p _ ih => exact handlePing_inv m _ p ih
  | inboundHandler fuel _ ih => exact inboundHandler_inv m fuel _ ih
  | outboundHandler fuel _ ih => exact outboundHandler_inv m fuel _ ih
  | Run _ ih => exact (Run_inv m _ ih).1

/-- A session made by `NewSession` has the invariant for the identifier 0. -/
theorem NewSession_inv (net : Network) (roomName password : String) (logger : List LogEntry)
    (s₀ : Session) (h : NewSession net roomName password logger = .ok s₀) : Inv 0 s₀ := by
  unfold NewSession Session.connect at h
  cases hd : net.dial with
  | error err => simp [hd] at h
  | ok u =>
    cases hc : net.newClient ("wss://euphoria.io/room/" ++ roomName ++ "/ws") with
    | error err => simp [hd, hc, Session.log] at h
    | ok wsConn =>
      simp [hd, hc, Session.log] at h
      subst h
      exact ⟨rfl, rfl, by simp⟩

/-- C8, as the claim states it, fails: a read error makes `receiver` end the process
through `Fatalf`; nothing is sent on `errChan`, and the wait of `Run` on that
channel does not return. -/
theorem receiver_error_not_on_errChan :
    brokenStream.receiver 1 =
      .fatal (({ brokenStream with
            conn := { brokenStream.conn with incoming := [.ok (encode ping1000)] } }).log
          .fatal "Error receiving packet: unexpected EOF\n")
        "Error receiving packet: unexpected EOF\n" ∧
    (brokenStream.receiver 1).session.errChan = [] ∧
    (brokenStream.receiver 1).session.Run.2 = .blocked (brokenStream.receiver 1).session ∧
    ¬ ∃ s' : Session, (brokenStream.receiver 1).session.Run.2 = .ok s' () :=
  ⟨rfl, rfl, rfl, fun ⟨_, h⟩ => by cases h⟩

/-- C8, amended (fail hard, fail once): a read or decode error in `receiver`, a
write error in `outboundHandler` and an encode error in `sendPayload` each end the
process at that point through `Fatalf`, with exactly one fatal log entry added and
no retry (the frames after the failed read stay unread, the packets after the
failed write stay queued); `errChan` is left as it was, and in every state reached
from a new session `errChan` is empty and the wait of `Run` does not return. -/
theorem fatal_errors_exit_process (s : Session) :
    (∀ (conn : Conn) (err : String), s.conn.ReadJSON = some (conn, .error err) →
      ∀ fuel, ∃ s' : Session,
        s.receiver (fuel + 1) = .fatal s' ("Error receiving packet: " ++ err ++ "\n") ∧
        s'.logger = s.logger ++
          [{ level := .fatal, msg := "Error receiving packet: " ++ err ++ "\n" }] ∧
        s'.errChan = s.errChan ∧ s'.conn = conn ∧ s'.inbound = s.inbound) ∧
    (∀ (p : PacketEvent) (q : List PacketEvent) (err : String) (rest : List (Option String)),
      s.outbound = p :: q → s.conn.writeErrs = some err :: rest →
      ∀ fuel, ∃ s' : Session,
        s.outboundHandler (fuel + 1) = .fatal s' ("Error sending packet: " ++ err ++ "\n") ∧
        s'.logger = s.logger ++
          [{ level := .debug, msg := "Sending packet of type '" ++ p.«Type» ++ "'\n" },
           { level := .fatal, msg := "Error sending packet: " ++ err ++ "\n" }] ∧
        s'.errChan = s.errChan ∧ s'.conn.written = s.conn.written ∧ s'.outbound = q) ∧
    (∀ (payload : Payload) (pType : PacketType) (err : String),
      jsonMarshal payload = .error err →
      ∃ s' : Session,
        s.sendPayload payload pType = .fatal s' ("Could not marshal payload: " ++ err ++ "\n") ∧
        s'.logger = s.logger ++
          [{ level := .fatal, msg := "Could not marshal payload: " ++ err ++ "\n" }] ∧
        s'.errChan = s.errChan ∧ s'.outbound = s.outbound) ∧
    (∀ (net : Network) (roomName password : String) (logger : List LogEntry) (s₀ : Session),
      NewSession net roomName password logger = .ok s₀ → Reachable s₀ s →
      s.errChan = [] ∧ s.Run.2 = .blocked s) := by
  refine ⟨?_, ?_, ?_, ?_⟩
  · intro conn err h fuel
    refine ⟨({ s with conn := conn }).log .fatal ("Error receiving packet: " ++ err ++ "\n"),
      ?_, rfl, rfl, rfl, rfl⟩
    simp [Session.receiver, Session.receivePacket, h, Session.Fatalf]
  · intro p q err rest hout hw fuel
    refine ⟨({ (({ s with outbound := q }).log .debug
        ("Sending packet of type '" ++ p.«Type» ++ "'\n")) with
        conn := { s.conn with writeErrs := rest } }).log .fatal
        ("Error sending packet: " ++ err ++ "\n"), ?_, ?_, rfl, rfl, rfl⟩
    · simp only [Session.outboundHandler, hout, Session.log, Conn.WriteJSON, hw, Session.Fatalf]
    · simp [Session.log]
  · intro payload pType err h
    refine ⟨s.log .fatal ("Could not marshal payload: " ++ err ++ "\n"), ?_, rfl, rfl, rfl⟩
    simp [Session.sendPayload, h, Session.Fatalf]
  · intro net roomName password logger s₀ hnew hr
    have hinv := reachable_inv 0 s₀ s (NewSession_inv net roomName password logger s₀ hnew) hr
    exact ⟨hinv.2.1, (Run_inv 0 s hinv).2⟩

/-- Witness of C8 amended: a failed read, a failed write, a payload that does not
encode, and a state reached from a new session. -/
theorem fatal_errors_exit_process_witness :
    (∃ s' : Session,
      brokenStream.receiver (2 + 1) =
        .fatal s' ("Error receiving packet: " ++ "unexpected EOF" ++ "\n") ∧
      s'.logger = brokenStream.logger ++
        [{ level := .fatal, msg := "Error receiving packet: " ++ "unexpected EOF" ++ "\n" }] ∧
      s'.errChan = brokenStream.errChan ∧
      s'.conn = { brokenStream.conn with incoming := [.ok (encode ping1000)] } ∧
      s'.inbound = brokenStream.inbound) ∧
    (∃ s' : Session,
      writeFails.outboundHandler (1 + 1) =
        .fatal s' ("Error sending packet: " ++ "broken pipe" ++ "\n") ∧
      s'.logger = writeFails.logger ++
        [{ level := .debug, msg := "Sending packet of type '" ++ joinEvent.«Type» ++ "'\n" },
         { level := .fatal, msg := "Error sending packet: " ++ "broken pipe" ++ "\n" }] ∧
      s'.errChan = writeFails.errChan ∧ s'.conn.written = writeFails.conn.written ∧
      s'.outbound = [ping1000]) ∧
    (∃ s' : Session,
      idle.sendPayload (.unsupported "chan int") SendType =
        .fatal s' ("Could not marshal payload: " ++ "json: unsupported type: chan int" ++ "\n") ∧
      s'.logger = idle.logger ++
        [{ level := .fatal,
           msg := "Could not marshal payload: " ++ "json: unsupported type: chan int" ++ "\n" }] ∧
      s'.errChan = idle.errChan ∧ s'.outbound = idle.outbound) ∧
    NewSession loopbackNet "test" "" [] = .ok connected ∧
    connected.receivePacket.session.errChan = [] ∧
    connected.receivePacket.session.Run.2 = .blocked connected.receivePacket.session :=
  ⟨(fatal_errors_exit_process brokenStream).1
      { brokenStream.conn with incoming := [.ok (encode ping1000)] } "unexpected EOF" rfl 2,
   (fatal_errors_exit_process writeFails).2.1 joinEvent [ping1000] "broken pipe" [] rfl rfl 1,
   (fatal_errors_exit_process idle).2.2.1 (.unsupported "chan int") SendType
      "json: unsupported type: chan int" rfl,
   rfl,
   (fatal_errors_exit_process connected.receivePacket.session).2.2.2 loopbackNet "test" "" []
      connected rfl (Reachable.receivePacket Reachable.init)⟩

/-- C10 (the correlation identifier never varies): a session made by `NewSession`
has `msgID` 0; in every state reached from it by the operations of `session.go`,
`msgID` is still 0, every queued outbound packet and every packet `sendPayload`
builds carries the id "0"; and the handling of an inbound packet does not depend
on that packet's id. -/
theorem msgID_never_varies (net : Network) (roomName password : String)
    (logger : List LogEntry) (s₀ s : Session)
    (hnew : NewSession net roomName password logger = .ok s₀) (hr : Reachable s₀ s) :
    s₀.msgID = 0 ∧ s.msgID = 0 ∧ (∀ p ∈ s.outbound, p.ID = "0") ∧
    (∀ (payload : Payload) (pType : PacketType) (s' : Session),
      s.sendPayload payload pType = .ok s' () →
      ∃ pkt : PacketEvent, s'.outbound = s.outbound ++ [pkt] ∧ pkt.ID = "0" ∧
        pkt.«Type» = pType ∧ s'.msgID = 0) ∧
    (∀ (p : PacketEvent) (id : String), s.handlePing { p with ID := id } = s.handlePing p) ∧
    (∀ (p : PacketEvent) (rest : List PacketEvent) (id : String) (fuel : Nat),
      ({ s with inbound := { p with ID := id } :: rest }).inboundHandler (fuel + 1) =
        ({ s with inbound := p :: rest }).inboundHandler (fuel + 1)) := by
  have h₀ := NewSession_inv net roomName password logger s₀ hnew
  have hinv := reachable_inv 0 s₀ s h₀ hr
  have hzero : Itoa 0 = "0" := rfl
  refine ⟨h₀.1, hinv.1, ?_, ?_, fun p id => rfl, fun p rest id fuel => rfl⟩
  · intro p hp
    rw [← hzero]
    exact hinv.2.2 p hp
  · intro payload pType s' hs
    cases payload <;>
      simp [Session.sendPayload, jsonMarshal, RawMessage.UnmarshalJSON, Session.Fatalf] at hs
    all_goals
      subst hs
      exact ⟨_, rfl, by simp [hinv.1, hzero], rfl, hinv.1⟩

/-- Witness of C10: the session made on `loopbackNet`, after it has received the
heartbeat frame and answered it. -/
theorem msgID_never_varies_witness :
    NewSession loopbackNet "test" "" [] = .ok connected ∧
    (connected.receivePacket.session.inboundHandler 1).session.msgID = 0 ∧
    (connected.receivePacket.session.inboundHandler 1).session.outbound =
      [{ ID := "0", «Type» := PingReplyType, Data := .obj [("time", .num 1000)] }] ∧
    ∀ p ∈ (connected.receivePacket.session.inboundHandler 1).session.outbound, p.ID = "0" :=
  ⟨rfl,
   (msgID_never_varies loopbackNet "test" "" [] connected
      (connected.receivePacket.session.inboundHandler 1).session rfl
      (Reachable.inboundHandler 1 (Reachable.receivePacket Reachable.init))).2.1,
   rfl,
   (msgID_never_varies loopbackNet "test" "" [] connected
      (connected.receivePacket.session.inboundHandler 1).session rfl
      (Reachable.inboundHandler 1 (Reachable.receivePacket Reachable.init))).2.2.1⟩

end Githubbot
